import Mathlib

/-!
Verification of `src/behaviour/entity/entity_behaviour_provider.rs` of the
inexor-rgf-plugin-http repository: a behaviour attachment registry with one
kind registry per behaviour kind (HTTP, JSON-RPC), a dispatching provider
(`add_behaviours` / `remove_behaviours` / `remove_behaviours_by_id`), and
fallible external behaviour factories (`Http::new`, `JsonRpc::new`).

The two `HashMap<Uuid, Arc<_>>` registries are modelled as association lists
with unique keys (the invariant a `HashMap` maintains); insertion replaces any
prior entry for the key, matching `HashMap::insert` up to lookup equivalence.
The behaviour instance types and the factories are external to the translated
file and are kept abstract (type parameters and factory functions).
-/

/-- Entity identifier (`uuid::Uuid`): used only as a map key, with no
semantics beyond equality, so it is modelled as `Nat`. -/
abbrev Uuid := Nat

/-- The part of `crate::model::ReactiveEntityInstance` the provider reads:
the identifier field `id` and the type tag `type_name`. -/
structure ReactiveEntityInstance where
  id : Uuid
  type_name : String
deriving DecidableEq

/-- Modelled from the spec: the behaviour kind identifier constant `HTTP`
from `crate::behaviour::entity::http`, which is not among the given source
files.  The spec's scenario uses the type tag `"HTTP"` for this kind. -/
def HTTP : String := "HTTP"

/-- Modelled from the spec: the behaviour kind identifier constant `JSONRPC`
from `crate::behaviour::entity::jsonrpc`, which is not among the given source
files. -/
def JSONRPC : String := "JSONRPC"

/-- One behaviour kind registry:
`std::sync::RwLock<std::collections::HashMap<Uuid, Arc<V>>>` (the wrappers
`HttpStorage` / `JsonRpcStorage`), modelled as an association list with
unique keys.  The lock only serializes access and carries no state. -/
structure Registry (β : Type) where
  entries : List (Uuid × β)
deriving DecidableEq

namespace Registry

/-- `HashMap::new()`. -/
def empty : Registry β := ⟨[]⟩

/-- `HashMap::insert(id, x)`: stores `x` under `id`, replacing any prior
entry for `id` (modelled by filtering out old entries for the key, which is
lookup-equivalent to in-place replacement and keeps keys unique). -/
def insert (m : Registry β) (id : Uuid) (x : β) : Registry β :=
  ⟨(id, x) :: m.entries.filter (fun p => p.1 != id)⟩

/-- `HashMap::remove(&id)`: removes the entry for `id` if present and
returns the removed value (`Option<V>`), `none` if absent. -/
def remove (m : Registry β) (id : Uuid) : Registry β × Option β :=
  (⟨m.entries.filter (fun p => p.1 != id)⟩,
   (m.entries.find? (fun p => p.1 == id)).map Prod.snd)

/-- `HashMap::contains_key(&id)`. -/
def contains_key (m : Registry β) (id : Uuid) : Bool :=
  m.entries.any (fun p => p.1 == id)

/-- `HashMap::get(&id)`: lookup by key. -/
def find? (m : Registry β) (id : Uuid) : Option β :=
  (m.entries.find? (fun p => p.1 == id)).map Prod.snd

/-- The number of entries stored under `id`. -/
def countKey (m : Registry β) (id : Uuid) : Nat :=
  (m.entries.filter (fun p => p.1 == id)).length

end Registry

/-- The state of `HttpEntityBehaviourProviderImpl`: the `http` and `jsonrpc`
storage fields.  `α` is the opaque behaviour instance type `Arc<Http>` and
`β` is `Arc<JsonRpc>`. -/
structure ProviderState (α β : Type) where
  http : Registry α
  jsonrpc : Registry β
deriving DecidableEq

/-- The external behaviour factories: `Http::new` and `JsonRpc::new` are not
among the given source files; only their success/failure contract is used
(`is_ok()` then `unwrap()`), so each is an abstract fallible constructor. -/
structure Factories (α β : Type) where
  httpNew : ReactiveEntityInstance → Option α
  jsonRpcNew : ReactiveEntityInstance → Option β

/-- `HttpEntityBehaviourProviderImpl::new()`. -/
def ProviderState.new : ProviderState α β :=
  { http := Registry.empty, jsonrpc := Registry.empty }

/-- `create_http`: runs the factory; on success inserts the instance under
the entity's id into the http registry; on failure does nothing. -/
def create_http (f : Factories α β) (s : ProviderState α β)
    (e : ReactiveEntityInstance) : ProviderState α β :=
  match f.httpNew e with
  | some http => { s with http := s.http.insert e.id http }
  | none => s

/-- `create_json_rpc`: runs the factory; on success inserts the instance
under the entity's id into the jsonrpc registry; on failure does nothing. -/
def create_json_rpc (f : Factories α β) (s : ProviderState α β)
    (e : ReactiveEntityInstance) : ProviderState α β :=
  match f.jsonRpcNew e with
  | some jsonrpc => { s with jsonrpc := s.jsonrpc.insert e.id jsonrpc }
  | none => s

/-- `remove_http`: removes the entry for the entity's id from the http
registry (the returned removed value is discarded). -/
def remove_http (s : ProviderState α β) (e : ReactiveEntityInstance) :
    ProviderState α β :=
  { s with http := (s.http.remove e.id).1 }

/-- `remove_json_rpc`: removes the entry for the entity's id from the
jsonrpc registry. -/
def remove_json_rpc (s : ProviderState α β) (e : ReactiveEntityInstance) :
    ProviderState α β :=
  { s with jsonrpc := (s.jsonrpc.remove e.id).1 }

/-- `remove_by_id`: for each of the two registries in turn, if the registry
contains the id, remove it (guarded check-then-remove, as in the source). -/
def remove_by_id (s : ProviderState α β) (id : Uuid) : ProviderState α β :=
  let s1 := if s.http.contains_key id
            then { s with http := (s.http.remove id).1 } else s
  if s1.jsonrpc.contains_key id
  then { s1 with jsonrpc := (s1.jsonrpc.remove id).1 } else s1

/-- `EntityBehaviourProvider::add_behaviours`: dispatches on the entity's
type tag; Rust `match` tests the constant patterns in order. -/
def add_behaviours (f : Factories α β) (s : ProviderState α β)
    (e : ReactiveEntityInstance) : ProviderState α β :=
  if e.type_name = HTTP then create_http f s e
  else if e.type_name = JSONRPC then create_json_rpc f s e
  else s

/-- `EntityBehaviourProvider::remove_behaviours`: dispatches on the entity's
type tag the same way. -/
def remove_behaviours (s : ProviderState α β) (e : ReactiveEntityInstance) :
    ProviderState α β :=
  if e.type_name = HTTP then remove_http s e
  else if e.type_name = JSONRPC then remove_json_rpc s e
  else s

/-- `EntityBehaviourProvider::remove_behaviours_by_id`: delegates to
`remove_by_id`. -/
def remove_behaviours_by_id (s : ProviderState α β) (id : Uuid) :
    ProviderState α β :=
  remove_by_id s id

/-! Helper lemmas about the registry operations. -/

namespace Registry

theorem contains_key_insert_self (m : Registry β) (id : Uuid) (x : β) :
    (m.insert id x).contains_key id = true := by
  simp [insert, contains_key]

theorem contains_key_remove_self (m : Registry β) (id : Uuid) :
    (m.remove id).1.contains_key id = false := by
  simp [remove, contains_key]

theorem contains_key_false_iff (m : Registry β) (id : Uuid) :
    m.contains_key id = false ↔ ∀ p ∈ m.entries, p.1 ≠ id := by
  simp [contains_key, List.any_eq_false]

theorem remove_eq_of_not_contains (m : Registry β) (id : Uuid)
    (h : m.contains_key id = false) : (m.remove id).1 = m := by
  have h' : ∀ p ∈ m.entries, (p.1 != id) = true := by
    intro p hp
    simpa using (contains_key_false_iff m id).mp h p hp
  show (⟨m.entries.filter (fun p => p.1 != id)⟩ : Registry β) = m
  rw [List.filter_eq_self.mpr h']

theorem find?_insert_self (m : Registry β) (id : Uuid) (x : β) :
    (m.insert id x).find? id = some x := by
  simp [insert, find?, List.find?_cons_of_pos]

theorem find?_filter_ne {id id' : Uuid} (h : id' ≠ id) (l : List (Uuid × β)) :
    (l.filter (fun p => p.1 != id)).find? (fun p => p.1 == id') =
      l.find? (fun p => p.1 == id') := by
  induction l with
  | nil => rfl
  | cons a l ih =>
    by_cases ha : a.1 = id
    · have hne : (id == id') = false := by simp [Ne.symm h]
      simp [List.filter_cons, ha, List.find?_cons, hne, ih]
    · by_cases ha2 : a.1 = id'
      · simp [List.filter_cons, ha, List.find?_cons, ha2, h]
      · simp [List.filter_cons, ha, List.find?_cons, ha2, h, ih]

theorem find?_insert_ne (m : Registry β) {id id' : Uuid} (x : β)
    (h : id' ≠ id) : (m.insert id x).find? id' = m.find? id' := by
  have hne : (id == id') = false := by simp [Ne.symm h]
  simp only [insert, find?, List.find?_cons, hne]
  rw [find?_filter_ne h]

theorem find?_remove_ne (m : Registry β) {id id' : Uuid} (h : id' ≠ id) :
    (m.remove id).1.find? id' = m.find? id' := by
  simp only [remove, find?]
  rw [find?_filter_ne h]

theorem countKey_insert_self (m : Registry β) (id : Uuid) (x : β) :
    (m.insert id x).countKey id = 1 := by
  have : (m.entries.filter (fun p => p.1 != id)).filter
      (fun p => p.1 == id) = [] := by
    rw [List.filter_filter]
    apply List.filter_eq_nil_iff.mpr
    intro p _
    by_cases hp : p.1 = id <;> simp [hp]
  simp [insert, countKey, List.filter_cons, this]

theorem countKey_filter_le (l : List (Uuid × β)) (q : Uuid × β → Bool)
    (id : Uuid) :
    ((l.filter q).filter (fun p => p.1 == id)).length ≤
      (l.filter (fun p => p.1 == id)).length := by
  apply List.Sublist.length_le
  apply List.Sublist.filter
  exact List.filter_sublist l

theorem countKey_insert_ne (m : Registry β) {id id' : Uuid} (x : β)
    (h : id' ≠ id) :
    (m.insert id x).countKey id' ≤ m.countKey id' := by
  have hne : (id == id') = false := by simp [Ne.symm h]
  simp only [insert, countKey, List.filter_cons, hne]
  simpa using countKey_filter_le m.entries (fun p => p.1 != id) id'

theorem countKey_remove_le (m : Registry β) (id id' : Uuid) :
    (m.remove id).1.countKey id' ≤ m.countKey id' := by
  simp only [remove, countKey]
  exact countKey_filter_le m.entries (fun p => p.1 != id) id'

theorem countKey_find?_some (m : Registry β) (id : Uuid) (x : β)
    (h : m.find? id = some x) : 1 ≤ m.countKey id := by
  simp only [find?] at h
  rw [Option.map_eq_some'] at h
  obtain ⟨p, hp, hpx⟩ := h
  have hmem : p ∈ m.entries := List.mem_of_find?_eq_some hp
  have hkey : (p.1 == id) = true := by
    have h2 := List.find?_some hp
    simpa using h2
  have : p ∈ m.entries.filter (fun p => p.1 == id) :=
    List.mem_filter.mpr ⟨hmem, hkey⟩
  simpa [countKey, Nat.succ_le_iff, List.length_pos] using
    List.ne_nil_of_mem this

end Registry

/-! Helper lemmas about the provider operations. -/

theorem remove_by_id_http (s : ProviderState α β) (id : Uuid) :
    (remove_by_id s id).http =
      if s.http.contains_key id then (s.http.remove id).1 else s.http := by
  by_cases h1 : s.http.contains_key id <;>
    by_cases h2 : s.jsonrpc.contains_key id <;>
      simp [remove_by_id, h1, h2]

theorem remove_by_id_jsonrpc (s : ProviderState α β) (id : Uuid) :
    (remove_by_id s id).jsonrpc =
      if s.jsonrpc.contains_key id then (s.jsonrpc.remove id).1
      else s.jsonrpc := by
  by_cases h1 : s.http.contains_key id <;>
    by_cases h2 : s.jsonrpc.contains_key id <;>
      simp [remove_by_id, h1, h2]

theorem remove_by_id_contains_http (s : ProviderState α β) (id : Uuid) :
    (remove_by_id s id).http.contains_key id = false := by
  rw [remove_by_id_http]
  by_cases h : s.http.contains_key id
  · simp [h, Registry.contains_key_remove_self]
  · simp [h]

theorem remove_by_id_contains_jsonrpc (s : ProviderState α β) (id : Uuid) :
    (remove_by_id s id).jsonrpc.contains_key id = false := by
  rw [remove_by_id_jsonrpc]
  by_cases h : s.jsonrpc.contains_key id
  · simp [h, Registry.contains_key_remove_self]
  · simp [h]

theorem remove_by_id_of_not_contains (s : ProviderState α β) (id : Uuid)
    (h1 : s.http.contains_key id = false)
    (h2 : s.jsonrpc.contains_key id = false) :
    remove_by_id s id = s := by
  simp [remove_by_id, h1, h2]

/-- The key-uniqueness invariant of one registry: at most one entry per
identifier (the invariant a `HashMap` maintains by construction). -/
def RegWF (m : Registry β) : Prop := ∀ id, m.countKey id ≤ 1

/-- The key-uniqueness invariant of the whole provider state. -/
def ProvWF (s : ProviderState α β) : Prop := RegWF s.http ∧ RegWF s.jsonrpc

theorem RegWF.empty : RegWF (Registry.empty : Registry β) := by
  intro id
  simp [Registry.empty, Registry.countKey]

theorem RegWF.insert (m : Registry β) (id : Uuid) (x : β) (h : RegWF m) :
    RegWF (m.insert id x) := by
  intro id'
  by_cases hid : id' = id
  · subst hid
    simp [Registry.countKey_insert_self]
  · exact le_trans (Registry.countKey_insert_ne m x hid) (h id')

theorem RegWF.remove (m : Registry β) (id : Uuid) (h : RegWF m) :
    RegWF (m.remove id).1 := by
  intro id'
  exact le_trans (Registry.countKey_remove_le m id id') (h id')

/-! Concrete instances used to witness the claim theorems. -/

/-- A concrete factory pair where both kinds build successfully. -/
def exF : Factories Nat Nat := ⟨fun _ => some 3, fun _ => some 4⟩

/-- A concrete factory pair where both kinds fail to build. -/
def exFfail : Factories Nat Nat := ⟨fun _ => none, fun _ => none⟩

/-- A concrete provider state: both registries empty. -/
def exS : ProviderState Nat Nat := ProviderState.new

/-- A concrete entity whose type tag is the HTTP kind identifier. -/
def eHttp : ReactiveEntityInstance := ⟨7, "HTTP"⟩

/-- A concrete entity whose type tag is the JSONRPC kind identifier. -/
def eJson : ReactiveEntityInstance := ⟨7, "JSONRPC"⟩

/-- A concrete entity whose type tag matches no known kind. -/
def eUnknown : ReactiveEntityInstance := ⟨7, "unknown"⟩

/-! The claim theorems. -/

/-- C1: for every entity whose type tag equals a known kind identifier
(HTTP or JSONRPC) and for which that kind's factory succeeds,
`add_behaviours` produces exactly one entry, keyed by the entity's
identifier, in exactly the matching kind's registry, and leaves the other
kind's registry without any new entry (it is unchanged). -/
theorem C1_attach_success (f : Factories α β) (s : ProviderState α β)
    (e : ReactiveEntityInstance) :
    (∀ x, e.type_name = HTTP → f.httpNew e = some x →
      (add_behaviours f s e).http.find? e.id = some x ∧
      (add_behaviours f s e).http.countKey e.id = 1 ∧
      (add_behaviours f s e).jsonrpc = s.jsonrpc) ∧
    (∀ y, e.type_name = JSONRPC → f.jsonRpcNew e = some y →
      (add_behaviours f s e).jsonrpc.find? e.id = some y ∧
      (add_behaviours f s e).jsonrpc.countKey e.id = 1 ∧
      (add_behaviours f s e).http = s.http) := by
  constructor
  · intro x hT hF
    simp [add_behaviours, hT, create_http, hF,
      Registry.find?_insert_self, Registry.countKey_insert_self]
  · intro y hT hF
    have hne : JSONRPC ≠ HTTP := by decide
    simp [add_behaviours, hT, hne, create_json_rpc, hF,
      Registry.find?_insert_self, Registry.countKey_insert_self]

/-- Witness for C1: entity id 7, type tag "HTTP", factory succeeds with 3. -/
theorem C1_attach_success_witness :
    eHttp.type_name = HTTP ∧ exF.httpNew eHttp = some 3 ∧
    ((add_behaviours exF exS eHttp).http.find? eHttp.id = some 3 ∧
      (add_behaviours exF exS eHttp).http.countKey eHttp.id = 1 ∧
      (add_behaviours exF exS eHttp).jsonrpc = exS.jsonrpc) :=
  ⟨rfl, rfl, (C1_attach_success exF exS eHttp).1 3 rfl rfl⟩

/-- C2: for every entity whose type tag matches a kind but whose factory
fails, `add_behaviours` creates no entry, propagates no error, and leaves
both registries exactly as they were (the state is unchanged). -/
theorem C2_attach_failure (f : Factories α β) (s : ProviderState α β)
    (e : ReactiveEntityInstance) :
    (e.type_name = HTTP → f.httpNew e = none → add_behaviours f s e = s) ∧
    (e.type_name = JSONRPC → f.jsonRpcNew e = none →
      add_behaviours f s e = s) := by
  constructor
  · intro hT hF
    simp [add_behaviours, hT, create_http, hF]
  · intro hT hF
    have hne : JSONRPC ≠ HTTP := by decide
    simp [add_behaviours, hT, hne, create_json_rpc, hF]

/-- Witness for C2: entity id 7, type tag "HTTP", factory fails. -/
theorem C2_attach_failure_witness :
    eHttp.type_name = HTTP ∧ exFfail.httpNew eHttp = none ∧
      add_behaviours exFfail exS eHttp = exS :=
  ⟨rfl, rfl, (C2_attach_failure exFfail exS eHttp).1 rfl rfl⟩

/-- C5: for every entity whose type tag matches no known kind identifier,
`add_behaviours` produces no entry in any kind registry and signals no
error; both registries are left untouched (the state is unchanged). -/
theorem C5_attach_no_match (f : Factories α β) (s : ProviderState α β)
    (e : ReactiveEntityInstance) (h1 : e.type_name ≠ HTTP)
    (h2 : e.type_name ≠ JSONRPC) : add_behaviours f s e = s := by
  simp [add_behaviours, h1, h2]

/-- Witness for C5: entity id 7, type tag "unknown". -/
theorem C5_attach_no_match_witness :
    eUnknown.type_name ≠ HTTP ∧ eUnknown.type_name ≠ JSONRPC ∧
      add_behaviours exF exS eUnknown = exS :=
  ⟨by decide, by decide,
    C5_attach_no_match exF exS eUnknown (by decide) (by decide)⟩

/-- A concrete provider state with one entry per registry under id 7. -/
def exS2 : ProviderState Nat Nat := ⟨⟨[(7, 3)]⟩, ⟨[(7, 4)]⟩⟩

/-- C6: for every entity whose type tag matches one kind,
`remove_behaviours` removes the entry for the entity's identifier only from
that matching kind's registry and leaves the other registry unchanged; it
is a no-op if no kind matches or no entry exists. -/
theorem C6_detach_matching_kind (s : ProviderState α β)
    (e : ReactiveEntityInstance) :
    (e.type_name = HTTP →
      (remove_behaviours s e).jsonrpc = s.jsonrpc ∧
      (remove_behaviours s e).http.contains_key e.id = false ∧
      (s.http.contains_key e.id = false → remove_behaviours s e = s)) ∧
    (e.type_name = JSONRPC →
      (remove_behaviours s e).http = s.http ∧
      (remove_behaviours s e).jsonrpc.contains_key e.id = false ∧
      (s.jsonrpc.contains_key e.id = false → remove_behaviours s e = s)) ∧
    (e.type_name ≠ HTTP → e.type_name ≠ JSONRPC →
      remove_behaviours s e = s) := by
  refine ⟨?_, ?_, ?_⟩
  · intro hT
    refine ⟨by simp [remove_behaviours, hT, remove_http], ?_, ?_⟩
    · simp [remove_behaviours, hT, remove_http,
        Registry.contains_key_remove_self]
    · intro hc
      simp [remove_behaviours, hT, remove_http,
        Registry.remove_eq_of_not_contains _ _ hc]
  · intro hT
    have hne : JSONRPC ≠ HTTP := by decide
    refine ⟨by simp [remove_behaviours, hT, hne, remove_json_rpc], ?_, ?_⟩
    · simp [remove_behaviours, hT, hne, remove_json_rpc,
        Registry.contains_key_remove_self]
    · intro hc
      simp [remove_behaviours, hT, hne, remove_json_rpc,
        Registry.remove_eq_of_not_contains _ _ hc]
  · intro h1 h2
    simp [remove_behaviours, h1, h2]

/-- Witness for C6: a matched detach on a populated state, a detach with no
entry present, and a detach with no matching kind. -/
theorem C6_detach_matching_kind_witness :
    (eHttp.type_name = HTTP ∧
      (remove_behaviours exS2 eHttp).jsonrpc = exS2.jsonrpc ∧
      (remove_behaviours exS2 eHttp).http.contains_key eHttp.id = false) ∧
    (exS.http.contains_key eHttp.id = false ∧
      remove_behaviours exS eHttp = exS) ∧
    (eUnknown.type_name ≠ HTTP ∧ eUnknown.type_name ≠ JSONRPC ∧
      remove_behaviours exS2 eUnknown = exS2) :=
  ⟨⟨rfl, ((C6_detach_matching_kind exS2 eHttp).1 rfl).1,
      ((C6_detach_matching_kind exS2 eHttp).1 rfl).2.1⟩,
   ⟨rfl, ((C6_detach_matching_kind exS eHttp).1 rfl).2.2 rfl⟩,
   ⟨by decide, by decide,
      (C6_detach_matching_kind exS2 eUnknown).2.2 (by decide) (by decide)⟩⟩

/-! For C7 the claim speaks of identifiers never inserted into a kind
registry, so registry states are generated by traces of operations. -/

/-- A single registry operation. -/
inductive RegOp (β : Type) where
  | insert (id : Uuid) (x : β)
  | remove (id : Uuid)
deriving DecidableEq

/-- Whether the operation inserts under `id`. -/
def RegOp.insertsId (op : RegOp β) (id : Uuid) : Bool :=
  match op with
  | .insert id' _ => id' == id
  | .remove _ => false

/-- Apply one operation to a registry. -/
def RegOp.apply (op : RegOp β) (m : Registry β) : Registry β :=
  match op with
  | .insert id x => m.insert id x
  | .remove id => (m.remove id).1

/-- Apply a trace of operations in order, starting from the empty registry
(`HashMap::new`). -/
def applyOps (ops : List (RegOp β)) : Registry β :=
  ops.foldl (fun m op => op.apply m) Registry.empty

theorem contains_key_insert_ne_false (m : Registry β) {id id' : Uuid}
    (x : β) (hne : id' ≠ id) (h : m.contains_key id = false) :
    (m.insert id' x).contains_key id = false := by
  rw [Registry.contains_key_false_iff] at h ⊢
  intro p hp
  simp only [Registry.insert, List.mem_cons] at hp
  rcases hp with hp | hp
  · subst hp
    simpa using hne
  · exact h p (List.mem_filter.mp hp).1

theorem contains_key_remove_false (m : Registry β) (id id' : Uuid)
    (h : m.contains_key id = false) :
    ((m.remove id').1).contains_key id = false := by
  rw [Registry.contains_key_false_iff] at h ⊢
  intro p hp
  exact h p (List.mem_filter.mp hp).1

theorem contains_key_apply_false (op : RegOp β) (m : Registry β) (id : Uuid)
    (hop : op.insertsId id = false) (h : m.contains_key id = false) :
    (op.apply m).contains_key id = false := by
  cases op with
  | insert id' x =>
    have hne : id' ≠ id := by simpa [RegOp.insertsId] using hop
    exact contains_key_insert_ne_false m x hne h
  | remove id' =>
    exact contains_key_remove_false m id id' h

theorem contains_key_foldl_false (ops : List (RegOp β)) (m : Registry β)
    (id : Uuid) (hops : ∀ op ∈ ops, op.insertsId id = false)
    (h : m.contains_key id = false) :
    (ops.foldl (fun m op => op.apply m) m).contains_key id = false := by
  induction ops generalizing m with
  | nil => simpa using h
  | cons op ops ih =>
    simp only [List.foldl_cons]
    apply ih
    · intro op' hop'
      exact hops op' (List.mem_cons_of_mem _ hop')
    · exact contains_key_apply_false op m id (hops op (List.mem_cons_self _ _)) h

/-- C7: for every identifier never inserted into a kind registry (i.e. for
every trace of registry operations containing no insert under that
identifier), `contains_key` is false and `remove` is a no-op on the
registry state. -/
theorem C7_never_inserted (ops : List (RegOp β)) (id : Uuid)
    (hops : ∀ op ∈ ops, op.insertsId id = false) :
    (applyOps ops).contains_key id = false ∧
      ((applyOps ops).remove id).1 = applyOps ops := by
  have hc : (applyOps ops).contains_key id = false :=
    contains_key_foldl_false ops Registry.empty id hops rfl
  exact ⟨hc, Registry.remove_eq_of_not_contains _ _ hc⟩

/-- Witness for C7: a trace inserting under ids 1 and 3 never inserts
under id 2. -/
theorem C7_never_inserted_witness :
    (∀ op ∈ ([.insert 1 5, .remove 2, .insert 3 6] : List (RegOp Nat)),
      op.insertsId 2 = false) ∧
    (applyOps ([.insert 1 5, .remove 2, .insert 3 6] :
        List (RegOp Nat))).contains_key 2 = false ∧
    ((applyOps ([.insert 1 5, .remove 2, .insert 3 6] :
        List (RegOp Nat))).remove 2).1 =
      applyOps ([.insert 1 5, .remove 2, .insert 3 6] : List (RegOp Nat)) :=
  ⟨by decide, C7_never_inserted _ 2 (by decide)⟩

/-- C8: the registry's `remove` returns whether a removal occurred: the
returned `Option` is `some` exactly when an entry for the id was present
(`contains_key`). -/
theorem C8_remove_result (m : Registry β) (id : Uuid) :
    (m.remove id).2.isSome = m.contains_key id := by
  simp only [Registry.remove, Registry.contains_key]
  induction m.entries with
  | nil => rfl
  | cons a l ih =>
    by_cases ha : a.1 = id <;>
      simp [List.find?_cons, List.any_cons, ha, ih]

/-- C9: every provider operation applied with an entity or identifier `id`
leaves the mapping stored under every other identifier unchanged in both
kind registries. -/
theorem C9_frame_other_ids (f : Factories α β) (s : ProviderState α β)
    (e : ReactiveEntityInstance) (id0 id' : Uuid)
    (h1 : id' ≠ e.id) (h2 : id' ≠ id0) :
    (add_behaviours f s e).http.find? id' = s.http.find? id' ∧
    (add_behaviours f s e).jsonrpc.find? id' = s.jsonrpc.find? id' ∧
    (remove_behaviours s e).http.find? id' = s.http.find? id' ∧
    (remove_behaviours s e).jsonrpc.find? id' = s.jsonrpc.find? id' ∧
    (remove_by_id s id0).http.find? id' = s.http.find? id' ∧
    (remove_by_id s id0).jsonrpc.find? id' = s.jsonrpc.find? id' := by
  have hJH : JSONRPC ≠ HTTP := by decide
  refine ⟨?_, ?_, ?_, ?_, ?_, ?_⟩
  · by_cases hT : e.type_name = HTTP
    · cases hF : f.httpNew e with
      | some x =>
        simp [add_behaviours, hT, create_http, hF,
          Registry.find?_insert_ne _ _ h1]
      | none => simp [add_behaviours, hT, create_http, hF]
    · by_cases hT2 : e.type_name = JSONRPC
      · cases hF : f.jsonRpcNew e with
        | some y => simp [add_behaviours, hT, hT2, hJH, create_json_rpc, hF]
        | none => simp [add_behaviours, hT, hT2, hJH, create_json_rpc, hF]
      · simp [add_behaviours, hT, hT2]
  · by_cases hT : e.type_name = HTTP
    · cases hF : f.httpNew e with
      | some x => simp [add_behaviours, hT, create_http, hF]
      | none => simp [add_behaviours, hT, create_http, hF]
    · by_cases hT2 : e.type_name = JSONRPC
      · cases hF : f.jsonRpcNew e with
        | some y =>
          simp [add_behaviours, hT, hT2, hJH, create_json_rpc, hF,
            Registry.find?_insert_ne _ _ h1]
        | none => simp [add_behaviours, hT, hT2, hJH, create_json_rpc, hF]
      · simp [add_behaviours, hT, hT2]
  · by_cases hT : e.type_name = HTTP
    · simp [remove_behaviours, hT, remove_http, Registry.find?_remove_ne _ h1]
    · by_cases hT2 : e.type_name = JSONRPC
      · simp [remove_behaviours, hT, hT2, hJH, remove_json_rpc]
      · simp [remove_behaviours, hT, hT2]
  · by_cases hT : e.type_name = HTTP
    · simp [remove_behaviours, hT, remove_http]
    · by_cases hT2 : e.type_name = JSONRPC
      · simp [remove_behaviours, hT, hT2, hJH, remove_json_rpc,
          Registry.find?_remove_ne _ h1]
      · simp [remove_behaviours, hT, hT2]
  · rw [remove_by_id_http]
    by_cases hc : s.http.contains_key id0
    · rw [if_pos hc]
      exact Registry.find?_remove_ne _ h2
    · rw [if_neg hc]
  · rw [remove_by_id_jsonrpc]
    by_cases hc : s.jsonrpc.contains_key id0
    · rw [if_pos hc]
      exact Registry.find?_remove_ne _ h2
    · rw [if_neg hc]

/-- Witness for C9: id 9 differs from the operated-on id 7. -/
theorem C9_frame_other_ids_witness :
    (9 : Uuid) ≠ eHttp.id ∧ (9 : Uuid) ≠ (7 : Uuid) ∧
    ((add_behaviours exF exS2 eHttp).http.find? 9 = exS2.http.find? 9 ∧
      (add_behaviours exF exS2 eHttp).jsonrpc.find? 9 =
        exS2.jsonrpc.find? 9 ∧
      (remove_behaviours exS2 eHttp).http.find? 9 = exS2.http.find? 9 ∧
      (remove_behaviours exS2 eHttp).jsonrpc.find? 9 =
        exS2.jsonrpc.find? 9 ∧
      (remove_by_id exS2 7).http.find? 9 = exS2.http.find? 9 ∧
      (remove_by_id exS2 7).jsonrpc.find? 9 = exS2.jsonrpc.find? 9) :=
  ⟨by decide, by decide,
    C9_frame_other_ids exF exS2 eHttp 7 9 (by decide) (by decide)⟩

/-- C3: `remove_by_id` attempts removal of the id from every kind registry:
after two successful attaches of different kinds for the same id (both
entries exist), one call removes both entries, and a second call changes
nothing. -/
theorem C3_detach_by_id_both_kinds (f : Factories α β)
    (s : ProviderState α β) (e1 e2 : ReactiveEntityInstance)
    (h1 : e1.type_name = HTTP) (h2 : e2.type_name = JSONRPC)
    (hid : e2.id = e1.id) (x : α) (y : β)
    (hx : f.httpNew e1 = some x) (hy : f.jsonRpcNew e2 = some y) :
    ((add_behaviours f (add_behaviours f s e1) e2).http.contains_key
        e1.id = true ∧
      (add_behaviours f (add_behaviours f s e1) e2).jsonrpc.contains_key
        e1.id = true) ∧
    ((remove_by_id (add_behaviours f (add_behaviours f s e1) e2)
        e1.id).http.contains_key e1.id = false ∧
      (remove_by_id (add_behaviours f (add_behaviours f s e1) e2)
        e1.id).jsonrpc.contains_key e1.id = false) ∧
    remove_by_id (remove_by_id (add_behaviours f (add_behaviours f s e1) e2)
        e1.id) e1.id =
      remove_by_id (add_behaviours f (add_behaviours f s e1) e2) e1.id := by
  have hJH : JSONRPC ≠ HTTP := by decide
  have hC1 := remove_by_id_contains_http
    (add_behaviours f (add_behaviours f s e1) e2) e1.id
  have hC2 := remove_by_id_contains_jsonrpc
    (add_behaviours f (add_behaviours f s e1) e2) e1.id
  refine ⟨⟨?_, ?_⟩, ⟨hC1, hC2⟩, remove_by_id_of_not_contains _ _ hC1 hC2⟩
  · simp [add_behaviours, h1, h2, hJH, create_http, create_json_rpc, hx, hy,
      Registry.contains_key_insert_self]
  · simp [add_behaviours, h1, h2, hJH, create_http, create_json_rpc, hx, hy,
      hid, Registry.contains_key_insert_self]

/-- Witness for C3: attaches of both kinds under id 7, then detach by id. -/
theorem C3_detach_by_id_both_kinds_witness :
    eHttp.type_name = HTTP ∧ eJson.type_name = JSONRPC ∧
    eJson.id = eHttp.id ∧ exF.httpNew eHttp = some 3 ∧
    exF.jsonRpcNew eJson = some 4 ∧
    ((remove_by_id (add_behaviours exF (add_behaviours exF exS eHttp) eJson)
        eHttp.id).http.contains_key eHttp.id = false ∧
      (remove_by_id (add_behaviours exF (add_behaviours exF exS eHttp) eJson)
        eHttp.id).jsonrpc.contains_key eHttp.id = false) :=
  ⟨rfl, rfl, rfl, rfl, rfl,
    (C3_detach_by_id_both_kinds exF exS eHttp eJson rfl rfl rfl 3 4
      rfl rfl).2.1⟩

/-! Preservation of the key-uniqueness invariant by each operation. -/

theorem create_http_WF (f : Factories α β) (s : ProviderState α β)
    (e : ReactiveEntityInstance) (h : ProvWF s) :
    ProvWF (create_http f s e) := by
  unfold create_http
  split
  · exact ⟨RegWF.insert _ _ _ h.1, h.2⟩
  · exact h

theorem create_json_rpc_WF (f : Factories α β) (s : ProviderState α β)
    (e : ReactiveEntityInstance) (h : ProvWF s) :
    ProvWF (create_json_rpc f s e) := by
  unfold create_json_rpc
  split
  · exact ⟨h.1, RegWF.insert _ _ _ h.2⟩
  · exact h

theorem add_behaviours_WF (f : Factories α β) (s : ProviderState α β)
    (e : ReactiveEntityInstance) (h : ProvWF s) :
    ProvWF (add_behaviours f s e) := by
  unfold add_behaviours
  split
  · exact create_http_WF f s e h
  · split
    · exact create_json_rpc_WF f s e h
    · exact h

theorem remove_behaviours_WF (s : ProviderState α β)
    (e : ReactiveEntityInstance) (h : ProvWF s) :
    ProvWF (remove_behaviours s e) := by
  unfold remove_behaviours remove_http remove_json_rpc
  split
  · exact ⟨RegWF.remove _ _ h.1, h.2⟩
  · split
    · exact ⟨h.1, RegWF.remove _ _ h.2⟩
    · exact h

theorem remove_by_id_WF (s : ProviderState α β) (id : Uuid)
    (h : ProvWF s) : ProvWF (remove_by_id s id) := by
  constructor
  · rw [remove_by_id_http]
    split
    · exact RegWF.remove _ _ h.1
    · exact h.1
  · rw [remove_by_id_jsonrpc]
    split
    · exact RegWF.remove _ _ h.2
    · exact h.2

/-- C4: each kind registry holds at most one entry per identifier, the
invariant is preserved by every provider operation, and inserting twice
under the same id leaves exactly one entry, holding the second value
(last-write-wins). -/
theorem C4_at_most_one_entry (f : Factories α β) (s : ProviderState α β)
    (e : ReactiveEntityInstance) (id0 : Uuid) (hs : ProvWF s) :
    (∀ (m : Registry α) (id : Uuid) (x y : α),
      ((m.insert id x).insert id y).countKey id = 1 ∧
      ((m.insert id x).insert id y).find? id = some y) ∧
    ProvWF (add_behaviours f s e) ∧ ProvWF (remove_behaviours s e) ∧
    ProvWF (remove_by_id s id0) :=
  ⟨fun _ _ _ _ =>
    ⟨Registry.countKey_insert_self _ _ _, Registry.find?_insert_self _ _ _⟩,
   add_behaviours_WF f s e hs, remove_behaviours_WF s e hs,
   remove_by_id_WF s id0 hs⟩

/-- Witness for C4: the empty provider state satisfies the invariant, and
so do the states after each operation; double insertion under id 7 leaves
one entry holding the second value. -/
theorem C4_at_most_one_entry_witness :
    ProvWF exS ∧
    (((Registry.empty : Registry Nat).insert 7 1 |>.insert 7 2).countKey 7
        = 1 ∧
      ((Registry.empty : Registry Nat).insert 7 1 |>.insert 7 2).find? 7
        = some 2) ∧
    ProvWF (add_behaviours exF exS eHttp) ∧
    ProvWF (remove_behaviours exS eHttp) ∧ ProvWF (remove_by_id exS 7) :=
  have hs : ProvWF exS := ⟨fun _ => Nat.zero_le 1, fun _ => Nat.zero_le 1⟩
  ⟨hs, (C4_at_most_one_entry exF exS eHttp 7 hs).1 Registry.empty 7 1 2,
   (C4_at_most_one_entry exF exS eHttp 7 hs).2.1,
   (C4_at_most_one_entry exF exS eHttp 7 hs).2.2.1,
   (C4_at_most_one_entry exF exS eHttp 7 hs).2.2.2⟩

/-- Modelled from the spec: `detach_by_id(id)` unconditionally attempts
removal of `id` from every known kind registry.  This is the specification
side of the refinement claim C10; the source's `remove_by_id` instead
guards each removal with a `contains_key` check. -/
def remove_by_id_unconditional (s : ProviderState α β) (id : Uuid) :
    ProviderState α β :=
  { http := (s.http.remove id).1, jsonrpc := (s.jsonrpc.remove id).1 }

/-- C10: in a sequential execution, the guarded check-then-remove sequence
of `remove_by_id` is, as a state transformer, equal to unconditionally
removing the id from both kind registries. -/
theorem C10_remove_by_id_refines (s : ProviderState α β) (id : Uuid) :
    remove_by_id s id = remove_by_id_unconditional s id := by
  have hh : (remove_by_id s id).http = (s.http.remove id).1 := by
    rw [remove_by_id_http]
    by_cases h : s.http.contains_key id
    · rw [if_pos h]
    · rw [if_neg h]
      have h' : s.http.contains_key id = false := by simpa using h
      exact (Registry.remove_eq_of_not_contains _ _ h').symm
  have hj : (remove_by_id s id).jsonrpc = (s.jsonrpc.remove id).1 := by
    rw [remove_by_id_jsonrpc]
    by_cases h : s.jsonrpc.contains_key id
    · rw [if_pos h]
    · rw [if_neg h]
      have h' : s.jsonrpc.contains_key id = false := by simpa using h
      exact (Registry.remove_eq_of_not_contains _ _ h').symm
  calc remove_by_id s id
      = ⟨(remove_by_id s id).http, (remove_by_id s id).jsonrpc⟩ := rfl
    _ = remove_by_id_unconditional s id := by
        rw [hh, hj]
        rfl
